import Mathlib

/-
Verification of the Neo Shop product catalog.

Shallow embedding of the two scripts of the repository:
  * the ApiService class (fetchProducts, transformProduct, parsePrice,
    isValidProduct, fetchProductById, testConnection), and
  * the ProductCatalog controller (loadProducts, loadProductsFromJSON,
    validateProductsData, handleSearch).

Modelling conventions:
  * JS numbers are rationals (Rat); NaN is represented by Option.none where a
    numeric parse can fail.  Rationals are always built with mkRat so that
    concrete runs reduce in the kernel.
  * Asynchronous network calls are modelled by environment records carrying
    the outcome the outside world would produce (connection flag, HTTP
    status, parsed body or parse failure).  A thrown JS error is Except.error.
  * DOM work (rendering, banners, focus) has no data content and is dropped;
    the user-visible outcome of a load is an explicit LoadOutcome value.
-/

/-- A JS value in a price-like field of a raw API record: null, undefined,
a boolean, a finite number, or a string. -/
inductive PriceVal where
  | vnull
  | vundef
  | vbool (b : Bool)
  | vnum (q : Rat)
  | vstr (s : String)
deriving DecidableEq

/-- JS truthiness for a PriceVal: null, undefined, false, 0 and the empty
string are falsy. -/
def priceTruthy : PriceVal → Bool
  | .vnull => false
  | .vundef => false
  | .vbool b => b
  | .vnum q => decide (q ≠ 0)
  | .vstr s => decide (s ≠ "")

/-- Numeric value of a digit list, most significant digit first. -/
def digitsVal (cs : List Char) : Nat :=
  cs.foldl (fun a c => a * 10 + (c.toNat - 48)) 0

/-- Model of JS parseFloat on the decimal forms the application's data uses:
skip leading whitespace, optional sign, integer digits, optional fractional
digits after a dot; parsing stops at the first other character and returns
NaN (none) when no digits were read.  (Exponent notation, which the catalog
data never contains, is not modelled.) -/
def parseFloatChars (cs0 : List Char) : Option Rat :=
  let cs1 := cs0.dropWhile Char.isWhitespace
  let neg : Bool := decide (cs1.head? = some '-')
  let cs2 := if cs1.head? = some '-' ∨ cs1.head? = some '+' then cs1.tail else cs1
  let ip := cs2.takeWhile Char.isDigit
  let rest := cs2.dropWhile Char.isDigit
  let fp := match rest with
    | '.' :: r => r.takeWhile Char.isDigit
    | _ => []
  if ip.isEmpty ∧ fp.isEmpty then none
  else
    let n : Nat := digitsVal ip * 10 ^ fp.length + digitsVal fp
    let num : Int := if neg then -(n : Int) else (n : Int)
    some (mkRat num (10 ^ fp.length))

/-- Replacement of the first comma by a dot, as in the JS expression
price.replace(Char 44, Char 46) applied with plain string arguments, which
replaces only the first occurrence. -/
def replaceFirstComma : List Char → List Char
  | [] => []
  | c :: cs => if c = ',' then '.' :: cs else c :: replaceFirstComma cs

/-- ApiService.parsePrice: falsy values and the literal string 0.00 are
absent; a string is parsed after the comma-to-dot replacement; NaN or a
value at most zero is absent. -/
def parsePrice (price : PriceVal) : Option Rat :=
  if ¬ priceTruthy price ∨ price = .vstr "0.00" then none
  else
    let numericPrice : Option Rat :=
      match price with
      | .vstr s => parseFloatChars (replaceFirstComma s.data)
      | .vnum q => some q
      | _ => none
    match numericPrice with
    | none => none
    | some q => if q ≤ 0 then none else some q

/-- A raw gallery entry: a plain string, or an object carrying a url field.
The transform reads image.url and falls back to the image itself. -/
inductive GalleryImage where
  | plain (s : String)
  | withUrlField (url : String)
deriving DecidableEq

/-- URL extracted from a gallery entry by the transform step. -/
def galleryUrl : GalleryImage → String
  | .plain s => s
  | .withUrlField u => u

/-- Trim of both ends of a character list (JS String.prototype.trim). -/
def trimChars (cs : List Char) : List Char :=
  (((cs.dropWhile Char.isWhitespace).reverse).dropWhile Char.isWhitespace).reverse

/-- JS trim on strings. -/
def jsTrim (s : String) : String :=
  String.mk (trimChars s.data)

/-- JS toLowerCase, restricted to the ASCII letters the catalog data uses. -/
def jsToLower (s : String) : String :=
  String.mk (s.data.map Char.toLower)

/-- A raw API record as far as the transform step reads it.  Untyped JS
fields are represented by the value the JS coercion reading them produces:
id and Rating carry the parseInt result (none for NaN), order carries the
parseFloat result (none for NaN), title, subtitle and description carry
some s exactly when the raw field is truthy with string value s, gallery is
none when the raw field is not an Array. -/
structure RawProduct where
  id : Option Int
  title : Option String
  subtitle : Option String
  description : Option String
  gallery : Option (List GalleryImage)
  price : PriceVal
  promotionalPrice : PriceVal
  Public : Bool
  Rating : Option Int
  order : Option Rat
deriving DecidableEq

/-- A product in the application format.  price, promotionalPrice are none
when the JS field is null; order is none when the JS field is undefined
(possible only for fallback-file records, the transform always sets it). -/
structure Product where
  id : Int
  title : String
  subtitle : Option String
  description : String
  gallery : List String
  price : Option Rat
  promotionalPrice : Option Rat
  public : Bool
  rating : Option Int
  order : Option Rat
deriving DecidableEq

/-- The record built by ApiService.transformProduct before validation.
parseInt(id) or 0 becomes getD 0 (NaN and 0 both give 0); a falsy title or
description becomes the empty string before trimming; a falsy subtitle
becomes null; a non-Array gallery becomes the empty list; Rating of NaN or
0 becomes null; order of NaN becomes 0. -/
def buildTransformed (r : RawProduct) : Product :=
  { id := r.id.getD 0
    title := jsTrim (r.title.getD "")
    subtitle := match r.subtitle with
      | some s => if s = "" then none else some (jsTrim s)
      | none => none
    description := jsTrim (r.description.getD "")
    gallery := (r.gallery.getD []).map galleryUrl
    price := parsePrice r.price
    promotionalPrice := parsePrice r.promotionalPrice
    public := r.Public
    rating := match r.Rating with
      | some n => if n = 0 then none else some n
      | none => none
    order := some (r.order.getD 0) }

/-- ApiService.isValidProduct.  The typeof checks on id, title, description
and gallery hold by construction in the typed embedding; typeof price
equal to the string number is price.isSome, since parsePrice yields null
exactly when the field is absent. -/
def isValidProduct (p : Product) : Bool :=
  decide (0 < p.id) &&
  decide (p.title ≠ "") &&
  decide (p.description ≠ "") &&
  (match p.price with
    | some q => decide (0 < q)
    | none => false) &&
  p.public

/-- ApiService.transformProduct: build the application-format record, log
and return null when it fails isValidProduct.  The try body cannot throw in
the typed embedding, so the catch branch that also returns null is silent
here. -/
def transformProduct (r : RawProduct) : Option Product :=
  let t := buildTransformed r
  if isValidProduct t then some t else none

/-- HTTP success flag (the response.ok of the Fetch API). -/
def respOk (status : Nat) : Bool :=
  decide (200 ≤ status) && decide (status ≤ 299)

/-- Outcome of the single GET request fetchProducts performs: whether the
network call resolved, the HTTP status, and the parsed body.  The body is
Except.error on a JSON parse failure, otherwise some results when the
envelope carries a results array and none when it does not. -/
structure FetchEnv where
  networkOk : Bool
  status : Nat
  body : Except String (Option (List RawProduct))

/-- ApiService.fetchProducts: any failure is rethrown with the wrapping
message; on success the results array is mapped through transformProduct,
so invalid records become null entries of the returned array. -/
def fetchProducts (env : FetchEnv) : Except String (List (Option Product)) :=
  if ¬ env.networkOk then .error "Falha ao carregar produtos: network error"
  else if ¬ respOk env.status then .error "Falha ao carregar produtos: Erro HTTP"
  else match env.body with
    | .error e => .error ("Falha ao carregar produtos: " ++ e)
    | .ok none => .error "Falha ao carregar produtos: Resposta da API não contém array de produtos válido"
    | .ok (some results) => .ok (results.map transformProduct)

/-- Outcome of the single GET request fetchProductById performs. -/
structure FetchByIdEnv where
  networkOk : Bool
  status : Nat
  body : Except String RawProduct

/-- The try block of ApiService.fetchProductById: status 404 returns null,
any other non-ok status throws, a parse failure throws, and a transformed
record that is missing or not public returns null. -/
def fetchProductByIdAttempt (env : FetchByIdEnv) : Except String (Option Product) :=
  if ¬ env.networkOk then .error "network error"
  else if ¬ respOk env.status then
    (if env.status = 404 then .ok none else .error "Erro HTTP")
  else match env.body with
    | .error e => .error e
    | .ok raw =>
      match transformProduct raw with
      | none => .ok none
      | some p => if ¬ p.public then .ok none else .ok (some p)

/-- ApiService.fetchProductById: the surrounding catch logs every error of
the try block and returns null. -/
def fetchProductById (env : FetchByIdEnv) : Option Product :=
  match fetchProductByIdAttempt env with
  | .ok v => v
  | .error _ => none

/-- UI state owned by the ProductCatalog controller (DOM handles omitted). -/
structure CatalogState where
  products : List Product
  filteredProducts : List Product
  isLoading : Bool
  currentSearchTerm : String
deriving DecidableEq

/-- Controller state as the constructor initializes it. -/
def initialState : CatalogState :=
  { products := [], filteredProducts := [], isLoading := false, currentSearchTerm := "" }

/-- Whether pat occurs at the head of hay. -/
def leadMatch : List Char → List Char → Bool
  | [], _ => true
  | _ :: _, [] => false
  | a :: pat, b :: hay => a == b && leadMatch pat hay

/-- Whether pat occurs contiguously anywhere in hay. -/
def hasSeq : List Char → List Char → Bool
  | [], pat => pat.isEmpty
  | hay@(_ :: t), pat => leadMatch pat hay || hasSeq t pat

/-- JS String.prototype.includes. -/
def strIncludes (s pat : String) : Bool :=
  hasSeq s.data pat.data

/-- The predicate of the filter inside ProductCatalog.handleSearch: the
lower-cased title, truthy subtitle, or description contains the already
lower-cased term. -/
def searchMatches (term : String) (p : Product) : Bool :=
  strIncludes (jsToLower p.title) term ||
  (match p.subtitle with
    | some s => decide (s ≠ "") && strIncludes (jsToLower s) term
    | none => false) ||
  strIncludes (jsToLower p.description) term

/-- ProductCatalog.handleSearch: trim and lower-case the term; an empty
term restores a copy of the full list, otherwise filter it.  The calls to
renderProducts, updateResultsInfo and showNoResults only touch the DOM. -/
def handleSearch (st : CatalogState) (searchTerm : String) : CatalogState :=
  let term := jsToLower (jsTrim searchTerm)
  if term = "" then
    { st with currentSearchTerm := term, filteredProducts := st.products }
  else
    { st with currentSearchTerm := term, filteredProducts := st.products.filter (searchMatches term) }

/-- Sort key of the comparator in ProductCatalog.loadProducts: the order
field, with undefined (and 0 itself) giving 0. -/
def orderKey (p : Product) : Rat :=
  p.order.getD 0

/-- Insertion step of the stable ascending sort by orderKey. -/
def insertByOrder (p : Product) : List Product → List Product
  | [] => [p]
  | q :: qs => if orderKey p ≤ orderKey q then p :: q :: qs else q :: insertByOrder p qs

/-- The sort the loader applies.  Array.prototype.sort with the comparator
on the order keys is stable (ES2019), so it is embedded as a stable
insertion sort, extensionally the sort the engine performs. -/
def sortByOrder : List Product → List Product
  | [] => []
  | p :: ps => insertByOrder p (sortByOrder ps)

/-- The predicate of the filter at the top of loadProducts, on a non-null
element: public, truthy title and description, price above zero (a null
price compares false). -/
def loadKeep (p : Product) : Bool :=
  p.public &&
  decide (p.title ≠ "") &&
  decide (p.description ≠ "") &&
  (match p.price with
    | some q => decide (0 < q)
    | none => false)

/-- The filter at the top of loadProducts over the array fetchProducts
returned, whose elements may be null: null elements are dropped and the
others are kept exactly when loadKeep holds. -/
def validFiltered (l : List (Option Product)) : List Product :=
  l.filterMap (fun op => match op with
    | some p => if loadKeep p then some p else none
    | none => none)

/-- ProductCatalog.validateProductsData on the parsed fallback document,
given as its products field (none when missing or not an array).  In the
typed embedding the defined-id, string-typed title and description and
array-typed gallery checks hold by construction; the residual check is
that every price is a number and not negative. -/
def validateProductsData (d : Option (List Product)) : Bool :=
  match d with
  | none => false
  | some ps => ps.all (fun p => match p.price with
      | some q => decide (0 ≤ q)
      | none => false)

/-- Everything the outside world decides during one run of loadProducts:
availability of the ApiService global, the testConnection result, the
fetchProducts request outcome, and the fallback file request outcome
(network flag, HTTP status, and the parsed products field or a parse
failure). -/
structure LoadEnv where
  apiAvailable : Bool
  connectionOk : Bool
  fetchEnv : FetchEnv
  fbNetworkOk : Bool
  fbStatus : Nat
  fbJson : Except String (Option (List Product))

/-- User-visible outcome of one loadProducts run. -/
inductive LoadOutcome where
  | ignored
  | loadedPrimary
  | loadedFallback (apiError : String)
  | failed (message : String)
deriving DecidableEq

/-- Error message thrown when testConnection reports failure. -/
def connFailMsg : String :=
  "Não foi possível conectar com a API. Verifique sua conexão ou configuração."

/-- The try block of loadProductsFromJSON: a fallback-request network
failure, a non-ok HTTP status, a JSON parse failure or an invalid document
throw; otherwise the document's products are produced. -/
def fallbackAttempt (env : LoadEnv) : Except String (List Product) :=
  if ¬ env.fbNetworkOk then .error "network error"
  else if ¬ respOk env.fbStatus then .error "HTTP error"
  else match env.fbJson with
    | .error e => .error e
    | .ok d =>
      if validateProductsData d then .ok (d.getD [])
      else .error "Dados do arquivo JSON são inválidos"

/-- ProductCatalog.loadProductsFromJSON: fetch the static file, validate
the document, adopt its products on success (showing the offline banner
with the primary error), otherwise show the combined error message.  On
failure the stored lists are left as they were. -/
def loadProductsFromJSON (st : CatalogState) (env : LoadEnv) (apiError : String) :
    CatalogState × LoadOutcome :=
  match fallbackAttempt env with
  | .ok ps => ({ st with products := ps, filteredProducts := ps }, .loadedFallback apiError)
  | .error jsonMsg =>
      (st, .failed ("API indisponível: " ++ apiError ++ ". Arquivo local também falhou: " ++ jsonMsg))

/-- The try block of loadProducts up to the sort: missing service, failed
connectivity check, a fetchProducts throw, an empty result array or an
empty post-validation set all throw; otherwise the stable-sorted valid
products are produced. -/
def primaryAttempt (env : LoadEnv) : Except String (List Product) :=
  if ¬ env.apiAvailable then .error "Serviço da API não está disponível"
  else if ¬ env.connectionOk then .error connFailMsg
  else match fetchProducts env.fetchEnv with
    | .error e => .error e
    | .ok apiProducts =>
      if apiProducts.isEmpty then .error "Nenhum produto público encontrado na API"
      else if (validFiltered apiProducts).isEmpty then .error "Nenhum produto válido encontrado"
      else .ok (sortByOrder (validFiltered apiProducts))

/-- ProductCatalog.loadProducts: the in-flight guard returns at once; on a
primary success the sorted list is stored and copied into the filtered
list; on a primary failure the fallback runs; the finally clause clears
isLoading on every path that ran. -/
def loadProducts (st : CatalogState) (env : LoadEnv) : CatalogState × LoadOutcome :=
  if st.isLoading then (st, .ignored)
  else
    match primaryAttempt env with
    | .ok sorted =>
        ({ st with products := sorted, filteredProducts := sorted, isLoading := false },
          .loadedPrimary)
    | .error msg =>
        ({ (loadProductsFromJSON st env msg).1 with isLoading := false },
          (loadProductsFromJSON st env msg).2)

/-- A valid product used in concrete runs (the claim C5 example, order 2). -/
def redMug : Product :=
  { id := 1, title := "Red Mug", subtitle := none, description := "A mug",
    gallery := [], price := some (mkRat 10 1), promotionalPrice := none,
    public := true, rating := none, order := some 2 }

/-- A valid product used in concrete runs (the claim C5 example, order 1). -/
def blueMug : Product :=
  { id := 2, title := "Blue Mug", subtitle := none, description := "A mug",
    gallery := [], price := some (mkRat 8 1), promotionalPrice := none,
    public := true, rating := none, order := some 1 }

/-- A raw API record that transforms into a valid product with order 2. -/
def rawRed : RawProduct :=
  { id := some 1, title := some "Red Mug", subtitle := none,
    description := some "A mug", gallery := some [], price := .vstr "10,50",
    promotionalPrice := .vnull, Public := true, Rating := none, order := some 2 }

/-- A raw API record that transforms into a valid product with order 1. -/
def rawBlue : RawProduct :=
  { id := some 2, title := some "Blue Mug", subtitle := none,
    description := some "A mug", gallery := some [], price := .vnum 8,
    promotionalPrice := .vnull, Public := true, Rating := none, order := some 1 }

/-- A raw API record with a falsy title, so its transform fails the
Product invariant. -/
def rawNoTitle : RawProduct :=
  { id := some 3, title := none, subtitle := none,
    description := some "No title here", gallery := some [], price := .vnum 5,
    promotionalPrice := .vnull, Public := true, Rating := none, order := some 0 }

/-- A fallback-file record that passes validateProductsData although its
title and description are empty, its price is zero and it is not public. -/
def badFallbackProduct : Product :=
  { id := 1, title := "", subtitle := none, description := "",
    gallery := [], price := some 0, promotionalPrice := none,
    public := false, rating := none, order := none }

/-- A load environment in which the primary path succeeds with the two raw
records above. -/
def goodLoadEnv : LoadEnv :=
  { apiAvailable := true, connectionOk := true,
    fetchEnv := { networkOk := true, status := 200, body := .ok (some [rawRed, rawBlue]) },
    fbNetworkOk := false, fbStatus := 0, fbJson := .error "unused" }

/-- A load environment in which the connectivity check fails and the
fallback file is served with the invalid record above. -/
def c1FallbackEnv : LoadEnv :=
  { apiAvailable := true, connectionOk := false,
    fetchEnv := { networkOk := false, status := 0, body := .error "unused" },
    fbNetworkOk := true, fbStatus := 200, fbJson := .ok (some [badFallbackProduct]) }

/-- A fetch environment whose results array holds one valid and one
invalid raw record. -/
def c2FetchEnv : FetchEnv :=
  { networkOk := true, status := 200, body := .ok (some [rawRed, rawNoTitle]) }

/-- A by-id fetch environment answering with HTTP status 500. -/
def c6Env500 : FetchByIdEnv :=
  { networkOk := true, status := 500, body := .ok rawRed }

/-- A by-id fetch environment answering with HTTP status 404. -/
def c6Env404 : FetchByIdEnv :=
  { networkOk := true, status := 404, body := .error "unused" }

/-- A load environment whose connectivity check fails and whose fallback
file is served correctly. -/
def c8Env : LoadEnv :=
  { apiAvailable := true, connectionOk := false,
    fetchEnv := { networkOk := true, status := 200, body := .ok (some [rawRed]) },
    fbNetworkOk := true, fbStatus := 200, fbJson := .ok (some [redMug]) }

/-- A catalog state holding the two demo products. -/
def demoState : CatalogState :=
  { products := [redMug, blueMug], filteredProducts := [redMug, blueMug],
    isLoading := false, currentSearchTerm := "" }



theorem leadMatch_iff (pat hay : List Char) :
    leadMatch pat hay = true ↔ ∃ r, hay = pat ++ r := by
  induction pat generalizing hay with
  | nil => simp [leadMatch]
  | cons a as ih =>
    cases hay with
    | nil => simp [leadMatch]
    | cons b bs =>
      simp only [leadMatch, Bool.and_eq_true, beq_iff_eq, ih, List.cons_append,
        List.cons.injEq]
      constructor
      · rintro ⟨rfl, r, rfl⟩
        exact ⟨r, rfl, rfl⟩
      · rintro ⟨r, rfl, rfl⟩
        exact ⟨rfl, r, rfl⟩

theorem hasSeq_iff (hay pat : List Char) :
    hasSeq hay pat = true ↔ ∃ l r, hay = l ++ pat ++ r := by
  induction hay with
  | nil =>
    simp only [hasSeq, List.isEmpty_iff]
    constructor
    · rintro rfl
      exact ⟨[], [], rfl⟩
    · rintro ⟨l, r, h⟩
      rcases List.append_eq_nil.mp h.symm with ⟨h1, h2⟩
      exact (List.append_eq_nil.mp h1).2
  | cons c t ih =>
    simp only [hasSeq, Bool.or_eq_true, leadMatch_iff, ih]
    constructor
    · rintro (⟨r, h⟩ | ⟨l, r, h⟩)
      · exact ⟨[], r, by simpa using h⟩
      · exact ⟨c :: l, r, by simp [h]⟩
    · rintro ⟨l, r, h⟩
      cases l with
      | nil =>
        exact Or.inl ⟨r, by simpa using h⟩
      | cons d l =>
        rcases List.cons.injEq c t d (l ++ pat ++ r) ▸ h with h
        simp only [List.cons_append, List.cons.injEq] at h
        exact Or.inr ⟨l, r, h.2⟩

theorem strIncludes_iff (s pat : String) :
    strIncludes s pat = true ↔ ∃ l r, s.data = l ++ pat.data ++ r :=
  hasSeq_iff s.data pat.data

theorem mem_insertByOrder (x p : Product) (l : List Product) :
    x ∈ insertByOrder p l ↔ x = p ∨ x ∈ l := by
  induction l with
  | nil => simp [insertByOrder]
  | cons q qs ih =>
    simp only [insertByOrder]
    split
    · simp
    · simp only [List.mem_cons, ih]
      tauto

theorem pairwise_insertByOrder (p : Product) (l : List Product)
    (h : List.Pairwise (fun a b => orderKey a ≤ orderKey b) l) :
    List.Pairwise (fun a b => orderKey a ≤ orderKey b) (insertByOrder p l) := by
  induction l with
  | nil => simp [insertByOrder]
  | cons q qs ih =>
    rw [List.pairwise_cons] at h
    obtain ⟨hq, hqs⟩ := h
    simp only [insertByOrder]
    split
    · rename_i hle
      rw [List.pairwise_cons]
      refine ⟨?_, List.pairwise_cons.mpr ⟨hq, hqs⟩⟩
      intro x hx
      rcases List.mem_cons.mp hx with rfl | hx
      · exact hle
      · exact le_trans hle (hq x hx)
    · rename_i hgt
      rw [List.pairwise_cons]
      refine ⟨?_, ih hqs⟩
      intro x hx
      rcases (mem_insertByOrder x p qs).mp hx with rfl | hx
      · exact le_of_not_le hgt
      · exact hq x hx

theorem sortByOrder_pairwise (l : List Product) :
    List.Pairwise (fun a b => orderKey a ≤ orderKey b) (sortByOrder l) := by
  induction l with
  | nil => simp [sortByOrder]
  | cons p ps ih => exact pairwise_insertByOrder p _ ih

theorem mem_sortByOrder (x : Product) (l : List Product) :
    x ∈ sortByOrder l ↔ x ∈ l := by
  induction l with
  | nil => simp [sortByOrder]
  | cons p ps ih => simp [sortByOrder, mem_insertByOrder, ih]

theorem filter_insertByOrder (p : Product) (l : List Product) (k : Rat) :
    (insertByOrder p l).filter (fun x => decide (orderKey x = k))
      = if orderKey p = k then p :: l.filter (fun x => decide (orderKey x = k))
        else l.filter (fun x => decide (orderKey x = k)) := by
  induction l with
  | nil =>
    simp only [insertByOrder, List.filter_cons, List.filter_nil, decide_eq_true_eq]
  | cons q qs ih =>
    simp only [insertByOrder]
    split
    · rename_i hle
      simp only [List.filter_cons, decide_eq_true_eq]
    · rename_i hgt
      simp only [List.filter_cons, decide_eq_true_eq, ih]
      by_cases hpk : orderKey p = k
      · have hqk : ¬ (orderKey q = k) := by
          intro hq
          exact hgt (le_of_eq (hpk.trans hq.symm))
        simp [hpk, hqk]
      · by_cases hqk : orderKey q = k <;> simp [hpk, hqk]

theorem filter_sortByOrder (l : List Product) (k : Rat) :
    (sortByOrder l).filter (fun x => decide (orderKey x = k))
      = l.filter (fun x => decide (orderKey x = k)) := by
  induction l with
  | nil => rfl
  | cons p ps ih =>
    simp only [sortByOrder, filter_insertByOrder, ih, List.filter_cons,
      decide_eq_true_eq]

theorem mem_validFiltered (p : Product) (l : List (Option Product))
    (h : p ∈ validFiltered l) : loadKeep p = true ∧ some p ∈ l := by
  unfold validFiltered at h
  rcases List.mem_filterMap.mp h with ⟨op, hop, heq⟩
  cases op with
  | none => simp at heq
  | some q =>
    by_cases hk : loadKeep q
    · simp only [hk, if_pos] at heq
      cases heq
      exact ⟨hk, hop⟩
    · simp [hk] at heq

theorem primaryAttempt_ok (env : LoadEnv) (l : List Product)
    (h : primaryAttempt env = .ok l) :
    ∃ ap, fetchProducts env.fetchEnv = Except.ok ap ∧
      l = sortByOrder (validFiltered ap) := by
  unfold primaryAttempt at h
  split at h
  · simp at h
  · split at h
    · simp at h
    · split at h
      · simp at h
      · rename_i ap heq
        split at h
        · simp at h
        · split at h
          · simp at h
          · cases h
            exact ⟨ap, heq, rfl⟩

theorem loadProducts_unfold (st : CatalogState) (env : LoadEnv)
    (hl : st.isLoading = false) :
    loadProducts st env =
      match primaryAttempt env with
      | .ok sorted =>
          ({ st with products := sorted, filteredProducts := sorted, isLoading := false },
            .loadedPrimary)
      | .error msg =>
          ({ (loadProductsFromJSON st env msg).1 with isLoading := false },
            (loadProductsFromJSON st env msg).2) := by
  simp [loadProducts, hl]

theorem loadProductsFromJSON_outcome (st : CatalogState) (env : LoadEnv) (msg : String) :
    (∃ e, (loadProductsFromJSON st env msg).2 = .loadedFallback e) ∨
    (∃ m, (loadProductsFromJSON st env msg).2 = .failed m) := by
  unfold loadProductsFromJSON
  split
  · exact Or.inl ⟨msg, rfl⟩
  · exact Or.inr ⟨_, rfl⟩

theorem fallbackAttempt_ok (env : LoadEnv) (ps : List Product)
    (h : fallbackAttempt env = .ok ps) :
    validateProductsData (some ps) = true := by
  unfold fallbackAttempt at h
  split at h
  · simp at h
  · split at h
    · simp at h
    · split at h
      · simp at h
      · rename_i d hd
        split at h
        · rename_i hvd
          cases h
          cases d with
          | none => simp [validateProductsData] at hvd
          | some ps2 => simpa [Option.getD] using hvd
        · simp at h

theorem loadProductsFromJSON_loadedFallback (st : CatalogState) (env : LoadEnv)
    (msg e : String)
    (h : (loadProductsFromJSON st env msg).2 = .loadedFallback e) :
    validateProductsData (some (loadProductsFromJSON st env msg).1.products) = true := by
  unfold loadProductsFromJSON at *
  split at h
  · rename_i ps hok
    simpa using fallbackAttempt_ok env ps hok
  · simp at h

theorem loadProducts_loadedPrimary (st : CatalogState) (env : LoadEnv)
    (h : (loadProducts st env).2 = .loadedPrimary) :
    st.isLoading = false ∧
    ∃ ap, fetchProducts env.fetchEnv = Except.ok ap ∧
      (loadProducts st env).1.products = sortByOrder (validFiltered ap) := by
  by_cases hl : st.isLoading
  · simp [loadProducts, hl] at h
  · have hl2 : st.isLoading = false := by simpa using hl
    refine ⟨hl2, ?_⟩
    rw [loadProducts_unfold st env hl2] at h ⊢
    set pa := primaryAttempt env with hpa
    rcases pa with msg | sorted
    · dsimp only at h
      rcases loadProductsFromJSON_outcome st env msg with ⟨e, he⟩ | ⟨m, hm⟩ <;>
        simp_all
    · dsimp only at h ⊢
      rcases primaryAttempt_ok env sorted hpa.symm with ⟨ap, hfe, hs⟩
      exact ⟨ap, hfe, hs⟩

theorem loadProducts_loadedFallback (st : CatalogState) (env : LoadEnv) (e : String)
    (h : (loadProducts st env).2 = .loadedFallback e) :
    validateProductsData (some (loadProducts st env).1.products) = true := by
  by_cases hl : st.isLoading
  · simp [loadProducts, hl] at h
  · have hl2 : st.isLoading = false := by simpa using hl
    rw [loadProducts_unfold st env hl2] at h ⊢
    set pa := primaryAttempt env with hpa
    rcases pa with msg | sorted
    · dsimp only at h ⊢
      exact loadProductsFromJSON_loadedFallback st env msg e h
    · dsimp only at h
      simp at h

theorem transformProduct_some_valid (r : RawProduct) (p : Product)
    (h : transformProduct r = some p) : isValidProduct p = true := by
  simp only [transformProduct] at h
  split at h
  · rename_i hv
    injection h with h2
    subst h2
    exact hv
  · simp at h

/-- C3: parsePrice maps the string 10,50 to 10.5 (written mkRat 21 2); the
number 0, the string 0.00 and any value whose parse is at most zero give
absent, never the number 0; and a string whose parse is NaN gives absent. -/
theorem c3_parsePrice_spec :
    parsePrice (.vstr "10,50") = some (mkRat 21 2) ∧
    parsePrice (.vnum 0) = none ∧
    parsePrice (.vstr "0.00") = none ∧
    (∀ q : Rat, q ≤ 0 → parsePrice (.vnum q) = none) ∧
    (∀ s : String, parseFloatChars (replaceFirstComma s.data) = none →
      parsePrice (.vstr s) = none) ∧
    (∀ (s : String) (q : Rat), parseFloatChars (replaceFirstComma s.data) = some q →
      q ≤ 0 → parsePrice (.vstr s) = none) := by
  refine ⟨by decide, by decide, by decide, ?_, ?_, ?_⟩
  · intro q hq
    by_cases h0 : q = 0
    · subst h0
      simp [parsePrice, priceTruthy]
    · simp [parsePrice, priceTruthy, h0, hq]
  · intro s hs
    unfold parsePrice
    split
    · rfl
    · dsimp only
      rw [hs]
  · intro s q hsq hq
    unfold parsePrice
    split
    · rfl
    · dsimp only
      rw [hsq]
      simp [hq]

/-- Witness for c3_parsePrice_spec: the number -3 and the string abc are
both absent. -/
theorem c3_parsePrice_spec_witness :
    parsePrice (.vnum (mkRat (-3) 1)) = none ∧ parsePrice (.vstr "abc") = none :=
  ⟨c3_parsePrice_spec.2.2.2.1 (mkRat (-3) 1) (by decide),
    c3_parsePrice_spec.2.2.2.2.1 "abc" (by decide)⟩

/-- C7: transformProduct returns none exactly when the record it built
fails the Product invariant, and every product it does return has a
positive id, a non-empty title and description, a price above zero and the
public flag set; being Option-valued, it never raises to its caller. -/
theorem c7_transform_discards_invalid : ∀ r : RawProduct,
    (transformProduct r = none ↔ isValidProduct (buildTransformed r) = false) ∧
    (∀ p, transformProduct r = some p →
      0 < p.id ∧ p.title ≠ "" ∧ p.description ≠ "" ∧
      (∃ q, p.price = some q ∧ 0 < q) ∧ p.public = true) := by
  intro r
  constructor
  · simp only [transformProduct]
    by_cases hv : isValidProduct (buildTransformed r) <;> simp [hv]
  · intro p hp
    simp only [transformProduct] at hp
    by_cases hv : isValidProduct (buildTransformed r)
    · rw [if_pos hv] at hp
      injection hp with hp2
      subst hp2
      unfold isValidProduct at hv
      simp only [Bool.and_eq_true, decide_eq_true_eq] at hv
      obtain ⟨⟨⟨⟨h1, h2⟩, h3⟩, h4⟩, h5⟩ := hv
      refine ⟨h1, h2, h3, ?_, h5⟩
      cases hpr : (buildTransformed r).price with
      | none => rw [hpr] at h4; simp at h4
      | some q =>
        rw [hpr] at h4
        exact ⟨q, rfl, by simpa using h4⟩
    · rw [if_neg hv] at hp
      simp at hp

/-- Witness for c7_transform_discards_invalid at the concrete record
rawRed. -/
theorem c7_transform_discards_invalid_witness :
    (buildTransformed rawRed).title ≠ "" ∧ (buildTransformed rawRed).public = true :=
  ⟨((c7_transform_discards_invalid rawRed).2 (buildTransformed rawRed) (by decide)).2.1,
    ((c7_transform_discards_invalid rawRed).2 (buildTransformed rawRed) (by decide)).2.2.2.2⟩

/-- C9: handleSearch never changes the stored full product list: filtering
only re-derives the filtered working set, and it touches neither the full
set nor the loading flag. -/
theorem c9_handleSearch_frame : ∀ (st : CatalogState) (t : String),
    (handleSearch st t).products = st.products ∧
    (handleSearch st t).isLoading = st.isLoading := by
  intro st t
  simp only [handleSearch]
  split <;> exact ⟨rfl, rfl⟩

/-- C10: a run of loadProducts that passes the in-flight guard clears
isLoading on every completion path, so a later load request is never
ignored because of a stale in-flight flag. -/
theorem c10_load_clears_isLoading : ∀ (st : CatalogState) (env : LoadEnv),
    st.isLoading = false →
    (loadProducts st env).1.isLoading = false ∧
    (∀ env2 : LoadEnv, (loadProducts (loadProducts st env).1 env2).2 ≠ .ignored) := by
  intro st env hl
  have hmain : (loadProducts st env).1.isLoading = false := by
    rw [loadProducts_unfold st env hl]
    set pa := primaryAttempt env with hpa
    rcases pa with msg | sorted <;> rfl
  refine ⟨hmain, ?_⟩
  intro env2
  rw [loadProducts_unfold _ env2 hmain]
  set pa := primaryAttempt env2 with hpa
  rcases pa with msg | sorted
  · dsimp only
    rcases loadProductsFromJSON_outcome (loadProducts st env).1 env2 msg with ⟨e, he⟩ | ⟨e, he⟩ <;>
      simp [he]
  · simp

/-- Witness for c10_load_clears_isLoading at the initial state and a
successful primary environment. -/
theorem c10_load_clears_isLoading_witness :
    (loadProducts initialState goodLoadEnv).1.isLoading = false :=
  (c10_load_clears_isLoading initialState goodLoadEnv rfl).1

/-- C6 counterexample: an HTTP 500 answer is one of the other failures the
claim says are propagated, yet the try block of fetchProductById throws
and the function still returns absent: nothing is raised to the caller. -/
theorem c6_http_error_not_propagated :
    fetchProductByIdAttempt c6Env500 = Except.error "Erro HTTP" ∧
    fetchProductById c6Env500 = none :=
  ⟨rfl, rfl⟩

/-- C6 amended: fetchProductById returns absent when the record does not
exist (HTTP 404) or the transformed record is missing or not public, and
it also returns absent instead of propagating on every failure of its try
block (non-404 HTTP error status, JSON parse failure, network failure):
the catch swallows every error. -/
theorem c6_fetchById_absorbs_failures : ∀ env : FetchByIdEnv,
    (env.networkOk = true → env.status = 404 → fetchProductById env = none) ∧
    (∀ e, fetchProductByIdAttempt env = Except.error e → fetchProductById env = none) ∧
    (∀ p, fetchProductById env = some p → isValidProduct p = true ∧ p.public = true) := by
  intro env
  refine ⟨?_, ?_, ?_⟩
  · intro hn h404
    unfold fetchProductById fetchProductByIdAttempt
    simp [hn, h404, respOk]
  · intro e he
    unfold fetchProductById
    rw [he]
  · intro p hp
    unfold fetchProductById at hp
    rcases ha : fetchProductByIdAttempt env with e | v
    · rw [ha] at hp
      simp at hp
    · rw [ha] at hp
      subst hp
      unfold fetchProductByIdAttempt at ha
      split at ha
      · simp at ha
      · split at ha
        · split at ha <;> simp at ha
        · split at ha
          · simp at ha
          · rename_i raw hraw
            rcases ht : transformProduct raw with _ | q
            · rw [ht] at ha
              simp at ha
            · rw [ht] at ha
              dsimp only at ha
              split at ha
              · simp at ha
              · rename_i hpub
                injection ha with ha2
                injection ha2 with ha3
                subst ha3
                exact ⟨transformProduct_some_valid raw _ ht, by simpa using hpub⟩

/-- Witness for c6_fetchById_absorbs_failures at the 404 environment. -/
theorem c6_fetchById_absorbs_failures_witness :
    fetchProductById c6Env404 = none :=
  (c6_fetchById_absorbs_failures c6Env404).1 rfl rfl

/-- C2 counterexample: with one valid and one invalid record in the same
results batch, fetchProducts does not exclude the failing record from the
sequence it returns: the invalid record appears as a null element. -/
theorem c2_invalid_record_not_excluded :
    isValidProduct (buildTransformed rawNoTitle) = false ∧
    fetchProducts c2FetchEnv = Except.ok [some (buildTransformed rawRed), none] :=
  ⟨by decide, rfl⟩

/-- C2 amended: fetchProducts maps the results array elementwise through
transformProduct, so a record failing a Product invariant becomes a null
placeholder kept at its position in the returned sequence rather than
being excluded; the batch is not aborted, the remaining valid records of
the batch are still transformed in place, and every non-null element is a
valid transformed product.  The null placeholders are only dropped later,
by the filter at the top of the controller's loadProducts. -/
theorem c2_batch_keeps_placeholders : ∀ (env : FetchEnv) (results : List RawProduct),
    env.networkOk = true → respOk env.status = true →
    env.body = Except.ok (some results) →
    fetchProducts env = Except.ok (results.map transformProduct) ∧
    (results.map transformProduct).length = results.length ∧
    (∀ i : Nat, (results.map transformProduct)[i]? = (results[i]?).map transformProduct) ∧
    (∀ p, some p ∈ results.map transformProduct → isValidProduct p = true) := by
  intro env results hn hok hb
  refine ⟨?_, by simp, ?_, ?_⟩
  · unfold fetchProducts
    simp [hn, hok, hb]
  · intro i
    simp
  · intro p hp
    rcases List.mem_map.mp hp with ⟨r, hr, ht⟩
    exact transformProduct_some_valid r p ht

/-- Witness for c2_batch_keeps_placeholders at the concrete batch with one
valid and one invalid record. -/
theorem c2_batch_keeps_placeholders_witness :
    fetchProducts c2FetchEnv = Except.ok ([rawRed, rawNoTitle].map transformProduct) :=
  (c2_batch_keeps_placeholders c2FetchEnv [rawRed, rawNoTitle] rfl rfl rfl).1

/-- C1 counterexample: with the primary path failing and the fallback file
serving a record with empty title and description, zero price and a false
public flag, the record passes validateProductsData and is adopted into
the stored product list, so a stored (and hence rendered) product can
violate every part of the claimed invariant. -/
theorem c1_fallback_violates_invariant :
    (loadProducts initialState c1FallbackEnv).1.products = [badFallbackProduct] ∧
    badFallbackProduct.title = "" ∧
    badFallbackProduct.description = "" ∧
    badFallbackProduct.price = some 0 ∧
    badFallbackProduct.public = false :=
  ⟨by decide, rfl, rfl, rfl, rfl⟩

/-- C1 amended: every product stored by a load that succeeded on the
primary path satisfies the invariant (non-empty title and description,
price above zero, public flag true); a load that succeeded through the
fallback file only guarantees validateProductsData's weaker check, a
numeric non-negative price, and in particular may store products with
empty texts, a zero price, or a false public flag. -/
theorem c1_stored_invariants :
    (∀ (st : CatalogState) (env : LoadEnv) (p : Product),
      (loadProducts st env).2 = .loadedPrimary →
      p ∈ (loadProducts st env).1.products →
      p.title ≠ "" ∧ p.description ≠ "" ∧ (∃ q, p.price = some q ∧ 0 < q) ∧
        p.public = true) ∧
    (∀ (st : CatalogState) (env : LoadEnv) (e : String) (p : Product),
      (loadProducts st env).2 = .loadedFallback e →
      p ∈ (loadProducts st env).1.products →
      ∃ q, p.price = some q ∧ 0 ≤ q) := by
  constructor
  · intro st env p hout hp
    rcases loadProducts_loadedPrimary st env hout with ⟨hl, ap, hfe, hprod⟩
    rw [hprod, mem_sortByOrder] at hp
    rcases mem_validFiltered p ap hp with ⟨hk, _⟩
    unfold loadKeep at hk
    simp only [Bool.and_eq_true, decide_eq_true_eq] at hk
    obtain ⟨⟨⟨hpub, ht⟩, hd⟩, hq⟩ := hk
    refine ⟨ht, hd, ?_, hpub⟩
    cases hpr : p.price with
    | none => rw [hpr] at hq; simp at hq
    | some q =>
      rw [hpr] at hq
      exact ⟨q, rfl, by simpa using hq⟩
  · intro st env e p hout hp
    have hval := loadProducts_loadedFallback st env e hout
    unfold validateProductsData at hval
    rw [List.all_eq_true] at hval
    have hpq := hval p hp
    cases hpr : p.price with
    | none => rw [hpr] at hpq; simp at hpq
    | some q =>
      rw [hpr] at hpq
      exact ⟨q, rfl, by simpa using hpq⟩

/-- Witness for c1_stored_invariants: the primary clause at the good load
environment and the stored product built from rawRed. -/
theorem c1_stored_invariants_witness :
    (buildTransformed rawRed).title ≠ "" ∧ (buildTransformed rawRed).description ≠ "" ∧
    (∃ q, (buildTransformed rawRed).price = some q ∧ 0 < q) ∧
    (buildTransformed rawRed).public = true :=
  c1_stored_invariants.1 initialState goodLoadEnv (buildTransformed rawRed)
    (by decide) (by decide)

/-- C8: when the connectivity check reports failure (with the service
global present), loadProducts never calls fetchProducts: its result does
not depend on the fetch outcome at all, and it is exactly the fallback
loader's result with the in-flight flag cleared. -/
theorem c8_connection_false_uses_fallback : ∀ (st : CatalogState) (env : LoadEnv),
    st.isLoading = false → env.apiAvailable = true → env.connectionOk = false →
    (∀ fe : FetchEnv, loadProducts st { env with fetchEnv := fe } = loadProducts st env) ∧
    loadProducts st env =
      ({ (loadProductsFromJSON st env connFailMsg).1 with isLoading := false },
        (loadProductsFromJSON st env connFailMsg).2) := by
  intro st env hl hav hconn
  have hpa : ∀ env2 : LoadEnv, env2.apiAvailable = true → env2.connectionOk = false →
      primaryAttempt env2 = Except.error connFailMsg := by
    intro env2 hav2 hconn2
    unfold primaryAttempt
    simp [hav2, hconn2]
  constructor
  · intro fe
    rw [loadProducts_unfold st _ hl, loadProducts_unfold st env hl,
      hpa { env with fetchEnv := fe } hav hconn, hpa env hav hconn]
    rfl
  · rw [loadProducts_unfold st env hl, hpa env hav hconn]

/-- Witness for c8_connection_false_uses_fallback: swapping in a failing
fetch outcome leaves the result of the load unchanged. -/
theorem c8_connection_false_uses_fallback_witness :
    loadProducts initialState
        { c8Env with fetchEnv := { networkOk := false, status := 0, body := .error "x" } }
      = loadProducts initialState c8Env :=
  (c8_connection_false_uses_fallback initialState c8Env rfl rfl rfl).1
    { networkOk := false, status := 0, body := .error "x" }

/-- C4: handleSearch trims and lower-cases the term; when the result is
empty the filtered set equals the full set in the same order; otherwise
the filtered set is the subsequence of the full set (full-set order
preserved) of exactly those products whose lower-cased title, truthy
subtitle or description contains the term as a substring. -/
theorem c4_handleSearch_spec : ∀ (st : CatalogState) (t : String),
    (jsToLower (jsTrim t) = "" → (handleSearch st t).filteredProducts = st.products) ∧
    (jsToLower (jsTrim t) ≠ "" →
      List.Sublist (handleSearch st t).filteredProducts st.products ∧
      (∀ p, p ∈ (handleSearch st t).filteredProducts ↔ p ∈ st.products ∧
        ((∃ l r, (jsToLower p.title).data = l ++ (jsToLower (jsTrim t)).data ++ r) ∨
         (∃ s, p.subtitle = some s ∧ s ≠ "" ∧
           ∃ l r, (jsToLower s).data = l ++ (jsToLower (jsTrim t)).data ++ r) ∨
         (∃ l r, (jsToLower p.description).data = l ++ (jsToLower (jsTrim t)).data ++ r)))) := by
  intro st t
  constructor
  · intro hterm
    simp [handleSearch, hterm]
  · intro hterm
    have hfp : (handleSearch st t).filteredProducts
        = st.products.filter (searchMatches (jsToLower (jsTrim t))) := by
      simp [handleSearch, hterm]
    constructor
    · rw [hfp]
      exact List.filter_sublist _
    · intro p
      rw [hfp, List.mem_filter]
      constructor
      · rintro ⟨hmem, hmatch⟩
        refine ⟨hmem, ?_⟩
        unfold searchMatches at hmatch
        simp only [Bool.or_eq_true] at hmatch
        rcases hmatch with (h1 | h2) | h3
        · exact Or.inl ((strIncludes_iff _ _).mp h1)
        · rcases hsub : p.subtitle with _ | s
          · rw [hsub] at h2
            simp at h2
          · rw [hsub] at h2
            dsimp only at h2
            simp only [Bool.and_eq_true, decide_eq_true_eq] at h2
            exact Or.inr (Or.inl ⟨s, rfl, h2.1, (strIncludes_iff _ _).mp h2.2⟩)
        · exact Or.inr (Or.inr ((strIncludes_iff _ _).mp h3))
      · rintro ⟨hmem, hcond⟩
        refine ⟨hmem, ?_⟩
        unfold searchMatches
        simp only [Bool.or_eq_true]
        rcases hcond with h1 | ⟨s, hsub, hne, hinc⟩ | h3
        · exact Or.inl (Or.inl ((strIncludes_iff _ _).mpr h1))
        · refine Or.inl (Or.inr ?_)
          rw [hsub]
          dsimp only
          simp only [Bool.and_eq_true, decide_eq_true_eq]
          exact ⟨hne, (strIncludes_iff _ _).mpr hinc⟩
        · exact Or.inr ((strIncludes_iff _ _).mpr h3)

/-- Witness for c4_handleSearch_spec: the raw term with spaces and capital
letters normalizes to a non-empty term and filtering the demo state yields
a subsequence of the full set. -/
theorem c4_handleSearch_spec_witness :
    jsToLower (jsTrim "  Mug ") ≠ "" ∧
    List.Sublist (handleSearch demoState "  Mug ").filteredProducts demoState.products :=
  ⟨by decide, ((c4_handleSearch_spec demoState "  Mug ").2 (by decide)).1⟩

/-- C5: after a successful primary load the stored list is ascending in
the order key (a missing order reads as 0), and the sort is stable: the
stored list is the stable sort of the validated fetch output, so products
with equal order keys keep their original relative order (the subsequence
at any fixed key value is unchanged); on the claim's example the stored
order is Blue Mug before Red Mug. -/
theorem c5_load_sort_stable :
    (∀ (st : CatalogState) (env : LoadEnv),
      (loadProducts st env).2 = .loadedPrimary →
      List.Pairwise (fun a b => orderKey a ≤ orderKey b) (loadProducts st env).1.products) ∧
    (∀ (st : CatalogState) (env : LoadEnv),
      (loadProducts st env).2 = .loadedPrimary →
      ∃ ap, fetchProducts env.fetchEnv = Except.ok ap ∧
        (loadProducts st env).1.products = sortByOrder (validFiltered ap) ∧
        ∀ k : Rat, ((loadProducts st env).1.products).filter (fun p => decide (orderKey p = k))
          = (validFiltered ap).filter (fun p => decide (orderKey p = k))) ∧
    sortByOrder [redMug, blueMug] = [blueMug, redMug] := by
  refine ⟨?_, ?_, by decide⟩
  · intro st env h
    rcases loadProducts_loadedPrimary st env h with ⟨hl, ap, hfe, hprod⟩
    rw [hprod]
    exact sortByOrder_pairwise _
  · intro st env h
    rcases loadProducts_loadedPrimary st env h with ⟨hl, ap, hfe, hprod⟩
    refine ⟨ap, hfe, hprod, ?_⟩
    intro k
    rw [hprod]
    exact filter_sortByOrder _ k

/-- Witness for c5_load_sort_stable: the good load environment ends in the
primary-loaded outcome and its stored list is ascending in the order
key. -/
theorem c5_load_sort_stable_witness :
    (loadProducts initialState goodLoadEnv).2 = LoadOutcome.loadedPrimary ∧
    List.Pairwise (fun a b => orderKey a ≤ orderKey b)
      (loadProducts initialState goodLoadEnv).1.products :=
  ⟨by decide, c5_load_sort_stable.1 initialState goodLoadEnv (by decide)⟩
